import Mathlib

/-!
# Verification of the chat relay server core

A shallow embedding of the chat server (`server.js`): the in-memory state
(active users registry, recent message buffer, banned users set, per-user
rate-limit activity), the pure helper functions, and the Socket.IO / HTTP
event handlers, modelled as pure functions from state to state plus a list
of emitted events.  Timestamps are naturals (milliseconds, `Date.now()`),
JavaScript `Map`s are insertion-ordered association lists, JavaScript
`Set`s of strings are insertion-ordered duplicate-free lists.
-/

set_option autoImplicit false

namespace ChatServer

/-- Socket identifiers are opaque strings (`socket.id`). -/
abbrev SocketId := String

/-! ## JavaScript string primitives -/

/-- The JavaScript whitespace class: the characters matched by `\s` in a
regular expression, which is also the set stripped by `String.prototype.trim`. -/
def jsWhite (c : Char) : Bool :=
  c == ' ' || c == '\t' || c == '\n' || c == '\r' ||
  c == '\x0b' || c == '\x0c' || c == '\u00A0' || c == '\u1680' ||
  ('\u2000' ≤ c && c ≤ '\u200A') || c == '\u2028' || c == '\u2029' ||
  c == '\u202F' || c == '\u205F' || c == '\u3000' || c == '\uFEFF'

/-- `String.prototype.trim`: strip leading and trailing whitespace. -/
def jsTrimList (l : List Char) : List Char :=
  ((l.dropWhile jsWhite).reverse.dropWhile jsWhite).reverse

/-- `String.prototype.toLowerCase`, restricted to the ASCII range (every
username character admitted by the policy's regular expression is ASCII). -/
def jsToLower (s : String) : String :=
  ⟨s.toList.map Char.toLower⟩

/-- `String.prototype.length`: the number of UTF-16 code units (characters
beyond the basic multilingual plane count twice). -/
def jsLength (s : String) : Nat :=
  (s.toList.map (fun c => if 0x10000 ≤ c.toNat then 2 else 1)).sum

/-! ## JavaScript `Map` as an insertion-ordered association list -/

/-- `Map.prototype.get`. -/
def mapLookup {α : Type} (k : String) : List (String × α) → Option α
  | [] => none
  | p :: rest => if p.1 == k then some p.2 else mapLookup k rest

/-- `Map.prototype.has`. -/
def mapContains {α : Type} (k : String) (l : List (String × α)) : Bool :=
  l.any (fun p => p.1 == k)

/-- `Map.prototype.set`: update in place when the key is present (keeping its
position in iteration order), append otherwise. -/
def mapSet {α : Type} (k : String) (v : α) (l : List (String × α)) : List (String × α) :=
  if mapContains k l then l.map (fun p => if p.1 == k then (k, v) else p)
  else l ++ [(k, v)]

/-- `Map.prototype.delete`. -/
def mapDelete {α : Type} (k : String) (l : List (String × α)) : List (String × α) :=
  l.filter (fun p => !(p.1 == k))

/-- `Set.prototype.add`. -/
def setAdd (s : List String) (x : String) : List String :=
  if s.contains x then s else s ++ [x]

/-- `Set.prototype.delete`. -/
def setDelete (s : List String) (x : String) : List String :=
  s.filter (fun y => !(y == x))

/-! ## Helper functions of the server -/

/-- `sanitizeUsername`: strip `<` and `>` and trim surrounding whitespace. -/
def sanitizeUsername (username : String) : String :=
  ⟨jsTrimList (username.toList.filter (fun c => !(c == '<' || c == '>')))⟩

/-- A word character for the purposes of the `\b` boundary in the script-tag
regular expression. -/
def isWordChar (c : Char) : Bool :=
  c.isAlpha || c.isDigit || c == '_'

/-- Case-insensitive (ASCII) test that the second list starts with the first. -/
def ciStartsWith : List Char → List Char → Bool
  | [], _ => true
  | _ :: _, [] => false
  | p :: ps, c :: cs => (p.toLower == c.toLower) && ciStartsWith ps cs

/-- Advance to the first `<` (the greedy `[^<]*` of the script regex). -/
def dropNonLt : List Char → List Char
  | [] => []
  | c :: cs => if c == '<' then c :: cs else dropNonLt cs

/-- After `<script\b[^<]*`, the tail `(?:(?!<\/script>)<[^<]*)*<\/script>` of the
script-block regular expression: repeatedly consume a `<` that does not open the
closing tag together with the following non-`<` run, then require `</script>`.
Returns the input remaining after the match.  `fuel` bounds the recursion and is
always at least the length of the list. -/
def scriptTail : Nat → List Char → Option (List Char)
  | 0, _ => none
  | _ + 1, [] => none
  | fuel + 1, c :: cs =>
    if c == '<' then
      if ciStartsWith ['/', 's', 'c', 'r', 'i', 'p', 't', '>'] cs then some (cs.drop 8)
      else scriptTail fuel (dropNonLt cs)
    else scriptTail fuel (dropNonLt cs)

/-- Match `/<script\b[^<]*(?:(?!<\/script>)<[^<]*)*<\/script>/i` at the head of
the list; on success return the input remaining after the matched block. -/
def matchScript (fuel : Nat) (s : List Char) : Option (List Char) :=
  if ciStartsWith ['<', 's', 'c', 'r', 'i', 'p', 't'] s then
    match s.drop 7 with
    | [] => none
    | c :: rest => if isWordChar c then none else scriptTail fuel (dropNonLt (c :: rest))
  else none

/-- Global replacement of script blocks by the empty string: scan left to
right, removing each match and resuming after it. -/
def stripScriptsAux : Nat → List Char → List Char
  | 0, s => s
  | _ + 1, [] => []
  | fuel + 1, c :: cs =>
    if c == '<' then
      match matchScript (fuel + 1) (c :: cs) with
      | some rest => stripScriptsAux fuel rest
      | none => c :: stripScriptsAux fuel cs
    else c :: stripScriptsAux fuel cs

/-- `.replace(/<script\b[^<]*(?:(?!<\/script>)<[^<]*)*<\/script>/gi, '')`. -/
def stripScripts (l : List Char) : List Char :=
  stripScriptsAux l.length l

/-- `sanitizeMessage`: remove script-tag blocks, strip remaining angle
brackets, trim surrounding whitespace. -/
def sanitizeMessage (message : String) : String :=
  ⟨jsTrimList ((stripScripts message.toList).filter (fun c => !(c == '<' || c == '>')))⟩

/-- The character class `[a-zA-Z0-9\s_-]` of the username regular expression. -/
def usernameClassChar (c : Char) : Bool :=
  c.isAlpha || c.isDigit || jsWhite c || c == '_' || c == '-'

/-- `/^[a-zA-Z0-9\s_-]+$/.test(username)`. -/
def usernameRegexTest (username : String) : Bool :=
  !(username.toList == []) && username.toList.all usernameClassChar

/-- `isValidUsername`: truthy, length between 1 and 20, matches the character
class, and its lowercasing is not in the banned set. -/
def isValidUsername (bannedUsers : List String) (username : String) : Bool :=
  !(username == "") &&
  decide (1 ≤ jsLength username) &&
  decide (jsLength username ≤ 20) &&
  usernameRegexTest username &&
  !(bannedUsers.contains (jsToLower username))

/-- `isValidMessage`: truthy and length between 1 and 500. -/
def isValidMessage (message : String) : Bool :=
  !(message == "") &&
  decide (1 ≤ jsLength message) &&
  decide (jsLength message ≤ 500)

/-! ## Rate limiting -/

/-- `MESSAGE_RATE_LIMIT`: maximum messages per window. -/
def MESSAGE_RATE_LIMIT : Nat := 10

/-- `MESSAGE_WINDOW`: one minute in milliseconds. -/
def MESSAGE_WINDOW : Nat := 60 * 1000

/-- An entry of the `userActivity` map. -/
structure Activity where
  messageCount : Nat
  lastMessage : Nat
deriving DecidableEq, Repr

/-- `checkMessageRateLimit` as a pure function: returns whether the message is
admitted together with the updated `userActivity` map. -/
def checkMessageRateLimit (userActivity : List (String × Activity)) (username : String)
    (now : Nat) : Bool × List (String × Activity) :=
  match mapLookup username userActivity with
  | none => (true, mapSet username ⟨1, now⟩ userActivity)
  | some activity =>
    if MESSAGE_WINDOW < now - activity.lastMessage then
      (true, mapSet username ⟨1, now⟩ userActivity)
    else if activity.messageCount < MESSAGE_RATE_LIMIT then
      (true, mapSet username ⟨activity.messageCount + 1, now⟩ userActivity)
    else
      (false, userActivity)

/-! ## Recent message buffer -/

/-- `MAX_RECENT_MESSAGES`. -/
def MAX_RECENT_MESSAGES : Nat := 50

/-- `addRecentMessage`: push at the tail; if the length now exceeds the
capacity, shift the head off. -/
def addRecentMessage {α : Type} (recentMessages : List α) (messageData : α) : List α :=
  let pushed := recentMessages ++ [messageData]
  if MAX_RECENT_MESSAGES < pushed.length then pushed.tail else pushed

/-! ## Data model -/

/-- A broadcast chat message (the `messageData` record). -/
structure MessageData where
  username : String
  message : String
  timestamp : Nat
  socketId : SocketId
deriving DecidableEq, Repr

/-- An entry of the `activeUsers` registry. -/
structure UserInfo where
  username : String
  joinTime : Nat
  lastSeen : Nat
  socketId : SocketId
  status : Option String := none
deriving DecidableEq, Repr

/-- The payload of an outbound Socket.IO event. -/
inductive Payload where
  | errorMsg (text : String)
  | userJoined (username : String) (onlineCount : Nat) (timestamp : Nat)
  | userLeft (username : String) (onlineCount : Nat) (timestamp : Nat)
  | chatMessage (data : MessageData)
  | userTyping (username : String) (typing : Bool)
  | onlineCount (n : Nat)
deriving DecidableEq, Repr

/-- Who an outbound event is addressed to: one socket (`socket.emit`), the
whole room (`io.to('main-chat').emit`), or everyone in the room except the
origin (`socket.to('main-chat').emit`). -/
inductive Audience where
  | one (sid : SocketId)
  | room
  | others (sid : SocketId)
deriving DecidableEq, Repr

/-- One outbound emission. -/
structure Emit where
  audience : Audience
  payload : Payload
deriving DecidableEq, Repr

/-- `socket.emit('error', ...)`. -/
def errorEmit (sid : SocketId) (text : String) : Emit :=
  ⟨Audience.one sid, Payload.errorMsg text⟩

/-- The whole in-memory server state.  `connected` is the set of sockets
whose transport is open (maintained by Socket.IO, read through
`io.sockets.sockets`); the other four fields are the server's own maps. -/
structure ServerState where
  activeUsers : List (SocketId × UserInfo)
  recentMessages : List MessageData
  bannedUsers : List String
  userActivity : List (String × Activity)
  connected : List SocketId
deriving DecidableEq, Repr

/-- The state at process start: every collection empty. -/
def initialState : ServerState :=
  ⟨[], [], [], [], []⟩

/-! ## Socket.IO event handlers -/

/-- `io.on('connection')`: the socket's transport opens and the current
online count is sent to it. -/
def connectHandler (st : ServerState) (sid : SocketId) : ServerState × List Emit :=
  ({ st with connected := setAdd st.connected sid },
    [⟨Audience.one sid, Payload.onlineCount st.activeUsers.length⟩])

/-- The `join` handler: sanitize and validate the username, reject a
case-insensitive duplicate of a live username, otherwise register the user,
broadcast `userJoined` with the fresh registry size, and replay the recent
message buffer to the requester. -/
def joinHandler (st : ServerState) (sid : SocketId) (raw : String) (now : Nat) :
    ServerState × List Emit :=
  let sanitized := sanitizeUsername raw
  if !(isValidUsername st.bannedUsers sanitized) then
    (st, [errorEmit sid "Invalid username. Use 1-20 characters, letters, numbers, spaces, hyphens, and underscores only."])
  else if st.activeUsers.any (fun p => jsToLower p.2.username == jsToLower sanitized) then
    (st, [errorEmit sid "Username is already taken. Please choose a different one."])
  else
    let users := mapSet sid ⟨sanitized, now, now, sid, none⟩ st.activeUsers
    ({ st with activeUsers := users },
      ⟨Audience.room, Payload.userJoined sanitized users.length now⟩ ::
        st.recentMessages.map (fun m => ⟨Audience.one sid, Payload.chatMessage m⟩))

/-- The `message` handler: require a prior join, sanitize, validate the
sanitized text, consult the rate limiter, then store the record in the
recent buffer, refresh `lastSeen` and broadcast to the room. -/
def messageHandler (st : ServerState) (sid : SocketId) (raw : String) (now : Nat) :
    ServerState × List Emit :=
  match mapLookup sid st.activeUsers with
  | none => (st, [errorEmit sid "You must join the chat first."])
  | some user =>
    let sanitized := sanitizeMessage raw
    if !(isValidMessage sanitized) then
      (st, [errorEmit sid "Invalid message. Must be 1-500 characters."])
    else
      let rl := checkMessageRateLimit st.userActivity user.username now
      if !rl.1 then
        ({ st with userActivity := rl.2 },
          [errorEmit sid "You are sending messages too quickly. Please slow down."])
      else
        let messageData : MessageData := ⟨user.username, sanitized, now, sid⟩
        ({ st with
            userActivity := rl.2,
            recentMessages := addRecentMessage st.recentMessages messageData,
            activeUsers := mapSet sid { user with lastSeen := now } st.activeUsers },
          [⟨Audience.room, Payload.chatMessage messageData⟩])

/-- The `typing` handler: silently ignored before join, otherwise an
ephemeral broadcast to the other room members. -/
def typingHandler (st : ServerState) (sid : SocketId) (typing : Bool) :
    ServerState × List Emit :=
  match mapLookup sid st.activeUsers with
  | none => (st, [])
  | some user => (st, [⟨Audience.others sid, Payload.userTyping user.username typing⟩])

/-- The `userIdle` handler: mark the user idle. -/
def userIdleHandler (st : ServerState) (sid : SocketId) : ServerState × List Emit :=
  match mapLookup sid st.activeUsers with
  | none => (st, [])
  | some user =>
    ({ st with activeUsers := mapSet sid { user with status := some "idle" } st.activeUsers },
      [])

/-- The `userActive` handler: mark the user active and refresh `lastSeen`. -/
def userActiveHandler (st : ServerState) (sid : SocketId) (now : Nat) :
    ServerState × List Emit :=
  match mapLookup sid st.activeUsers with
  | none => (st, [])
  | some user =>
    ({ st with
        activeUsers :=
          mapSet sid { user with status := some "active", lastSeen := now } st.activeUsers },
      [])

/-- `handleUserDisconnection`: if the socket is registered, delete it, emit
`userLeft` (with the registry size measured after the deletion) to the other
room members, and drop the username's rate activity when its last message is
more than five minutes old.  A no-op when the socket is not registered. -/
def handleUserDisconnection (st : ServerState) (sid : SocketId) (now : Nat) :
    ServerState × List Emit :=
  match mapLookup sid st.activeUsers with
  | none => (st, [])
  | some user =>
    let users := mapDelete sid st.activeUsers
    let activity :=
      match mapLookup user.username st.userActivity with
      | some a =>
        if 5 * 60 * 1000 < now - a.lastMessage then mapDelete user.username st.userActivity
        else st.userActivity
      | none => st.userActivity
    ({ st with activeUsers := users, userActivity := activity },
      [⟨Audience.others sid, Payload.userLeft user.username users.length now⟩])

/-- The explicit `leave` event. -/
def leaveHandler (st : ServerState) (sid : SocketId) (now : Nat) : ServerState × List Emit :=
  handleUserDisconnection st sid now

/-- The transport `disconnect` event: besides `handleUserDisconnection`, the
socket's transport is now closed. -/
def disconnectHandler (st : ServerState) (sid : SocketId) (now : Nat) :
    ServerState × List Emit :=
  let r := handleUserDisconnection st sid now
  ({ r.1 with connected := r.1.connected.filter (fun s => !(s == sid)) }, r.2)

/-! ## The idle reaper -/

/-- `inactiveThreshold`: thirty minutes in milliseconds. -/
def INACTIVE_THRESHOLD : Nat := 30 * 60 * 1000

/-- Rate-activity entries older than one hour are pruned by the reaper. -/
def ACTIVITY_TTL : Nat := 60 * 60 * 1000

/-- The reaper's loop over the registry (a `for … of` over the map's entries
with in-place deletion): a stale entry is deleted and `userLeft` is emitted
with the size of the map at that moment, which is the number of entries kept
so far plus the entries not yet visited. -/
def reapUsers (now : Nat) : Nat → List (SocketId × UserInfo) →
    List (SocketId × UserInfo) × List Emit
  | _, [] => ([], [])
  | kept, (sid, u) :: rest =>
    if INACTIVE_THRESHOLD < now - u.lastSeen then
      let r := reapUsers now kept rest
      (r.1, ⟨Audience.room, Payload.userLeft u.username (kept + rest.length) now⟩ :: r.2)
    else
      let r := reapUsers now (kept + 1) rest
      ((sid, u) :: r.1, r.2)

/-- One cycle of the `setInterval` cleanup: evict registry entries whose
`lastSeen` is more than thirty minutes old (emitting `userLeft` for each) and
drop rate-activity entries whose last message is more than one hour old. -/
def cleanup (st : ServerState) (now : Nat) : ServerState × List Emit :=
  let r := reapUsers now 0 st.activeUsers
  ({ st with
      activeUsers := r.1,
      userActivity :=
        st.userActivity.filter (fun p => !(decide (ACTIVITY_TTL < now - p.2.lastMessage))) },
    r.2)

/-! ## Admin HTTP endpoints -/

/-- `POST /api/admin/ban`.  Returns the HTTP status, the new state, the
Socket.IO emissions, and the sockets force-disconnected (`socket.disconnect(true)`).
`envKey` is `process.env.ADMIN_KEY`; `adminKey` and `username` come from the
request body and may be absent. -/
def banHandler (st : ServerState) (envKey adminKey username : Option String) :
    Nat × ServerState × List Emit × List SocketId :=
  if !(adminKey == envKey) then (401, st, [], [])
  else
    match username with
    | none => (400, st, [], [])
    | some u =>
      if u == "" then (400, st, [], [])
      else
        let st' := { st with bannedUsers := setAdd st.bannedUsers (jsToLower u) }
        match st.activeUsers.find? (fun p => jsToLower p.2.username == jsToLower u) with
        | none => (200, st', [], [])
        | some (sid, _) =>
          if st.connected.contains sid then
            (200, st', [errorEmit sid "You have been banned from the chat."], [sid])
          else (200, st', [], [])

/-- `POST /api/admin/unban`. -/
def unbanHandler (st : ServerState) (envKey adminKey username : Option String) :
    Nat × ServerState × List Emit × List SocketId :=
  if !(adminKey == envKey) then (401, st, [], [])
  else
    match username with
    | none => (400, st, [], [])
    | some u =>
      if u == "" then (400, st, [], [])
      else (200, { st with bannedUsers := setDelete st.bannedUsers (jsToLower u) }, [], [])

/-! ## Reachable states -/

/-- The inbound events that mutate server state. -/
inductive Event where
  | connect (sid : SocketId)
  | join (sid : SocketId) (raw : String) (now : Nat)
  | message (sid : SocketId) (raw : String) (now : Nat)
  | typing (sid : SocketId) (b : Bool)
  | userIdle (sid : SocketId)
  | userActive (sid : SocketId) (now : Nat)
  | leave (sid : SocketId) (now : Nat)
  | disconnect (sid : SocketId) (now : Nat)
  | sweep (now : Nat)
  | adminBan (envKey adminKey username : Option String)
  | adminUnban (envKey adminKey username : Option String)

/-- The state transition of one inbound event. -/
def step (st : ServerState) : Event → ServerState
  | Event.connect sid => (connectHandler st sid).1
  | Event.join sid raw now => (joinHandler st sid raw now).1
  | Event.message sid raw now => (messageHandler st sid raw now).1
  | Event.typing sid b => (typingHandler st sid b).1
  | Event.userIdle sid => (userIdleHandler st sid).1
  | Event.userActive sid now => (userActiveHandler st sid now).1
  | Event.leave sid now => (leaveHandler st sid now).1
  | Event.disconnect sid now => (disconnectHandler st sid now).1
  | Event.sweep now => (cleanup st now).1
  | Event.adminBan e k u => (banHandler st e k u).2.1
  | Event.adminUnban e k u => (unbanHandler st e k u).2.1

/-- The states the server can be in: everything produced from the initial
state by a finite sequence of inbound events. -/
inductive Reachable : ServerState → Prop
  | init : Reachable initialState
  | step {st : ServerState} (e : Event) : Reachable st → Reachable (step st e)

/-! ## Invariants and specification-side definitions -/

/-- Two registry entries carry usernames that differ case-insensitively. -/
def usernameDistinct (a b : SocketId × UserInfo) : Prop :=
  jsToLower a.2.username ≠ jsToLower b.2.username

/-- No two live connections hold case-insensitively equal usernames. -/
def UniqueUsernames (st : ServerState) : Prop :=
  st.activeUsers.Pairwise usernameDistinct

/-- Well-formedness of the registry: it is a map (no duplicate socket ids)
whose entries carry pairwise case-insensitively distinct usernames. -/
def RegistryWF (st : ServerState) : Prop :=
  (st.activeUsers.map Prod.fst).Nodup ∧ UniqueUsernames st

/-- A registry entry the reaper treats as stale. -/
def staleUser (now : Nat) (p : SocketId × UserInfo) : Bool :=
  decide (INACTIVE_THRESHOLD < now - p.2.lastSeen)

/-- The `userLeft` emissions of one reaper cycle, described from the spec's
words: one broadcast per evicted entry, in registry order, carrying the
online count measured after that eviction.  When the entries listed here are
the evicted ones and `base` is the number of entries that survive the sweep,
the count attached to an eviction is `base` plus the number of evictions
still to come after it. -/
def staleEmits (now : Nat) : List (SocketId × UserInfo) → Nat → List Emit
  | [], _ => []
  | (_, u) :: rest, base =>
    ⟨Audience.room, Payload.userLeft u.username (base + rest.length) now⟩ ::
      staleEmits now rest base

/-- Modelled from the claim (C1): a fixed-window rate limiter whose stored
timestamp is the start of the window, written only when a window is opened
or reset — an admission that merely increments the counter leaves the
window's start unchanged. -/
def fixedWindowCheck (userActivity : List (String × Activity)) (username : String)
    (now : Nat) : Bool × List (String × Activity) :=
  match mapLookup username userActivity with
  | none => (true, mapSet username ⟨1, now⟩ userActivity)
  | some activity =>
    if MESSAGE_WINDOW < now - activity.lastMessage then
      (true, mapSet username ⟨1, now⟩ userActivity)
    else if activity.messageCount < MESSAGE_RATE_LIMIT then
      (true, mapSet username ⟨activity.messageCount + 1, activity.lastMessage⟩ userActivity)
    else
      (false, userActivity)

/-- Run a rate limiter over a list of message timestamps for one username,
returning the admission verdicts in order. -/
def runLimiter (check : List (String × Activity) → String → Nat → Bool × List (String × Activity))
    (username : String) (times : List Nat) : List Bool :=
  (times.foldl
    (fun acc t =>
      let r := check acc.1 username t
      (r.2, acc.2 ++ [r.1]))
    (([] : List (String × Activity)), ([] : List Bool))).2

/-- The character set named by the claim about accepted usernames (C4):
letters, digits, underscore, hyphen, and the space character. -/
def claimUsernameChar (c : Char) : Bool :=
  c.isAlpha || c.isDigit || c == '_' || c == '-' || c == ' '

/-- Recognize a `userLeft` emission. -/
def isUserLeftEmit (e : Emit) : Bool :=
  match e.payload with
  | Payload.userLeft _ _ _ => true
  | _ => false

/-- How many of the emissions are `userLeft` broadcasts. -/
def countUserLeft (evs : List Emit) : Nat :=
  (evs.filter isUserLeftEmit).length

/-! ## Association-map lemmas -/

theorem mem_of_mapLookup {α : Type} {k : String} {l : List (String × α)} {v : α}
    (h : mapLookup k l = some v) : (k, v) ∈ l := by
  induction l with
  | nil => simp [mapLookup] at h
  | cons p rest ih =>
    by_cases hk : p.1 == k
    · simp only [mapLookup, hk, if_pos] at h
      have h1 : p.1 = k := by simpa using hk
      have h2 : p.2 = v := by simpa using h
      have hpv : p = (k, v) := by cases p; simp_all
      rw [← hpv]
      exact List.mem_cons_self p rest
    · simp only [mapLookup, hk] at h
      simp only [Bool.false_eq_true, if_false] at h
      exact List.mem_cons_of_mem _ (ih h)

theorem mapLookup_eq_none_of_not_mem {α : Type} {k : String} {l : List (String × α)}
    (h : k ∉ l.map Prod.fst) : mapLookup k l = none := by
  induction l with
  | nil => rfl
  | cons p rest ih =>
    simp only [List.map_cons, List.mem_cons, not_or] at h
    have hk : (p.1 == k) = false := by
      simp only [beq_eq_false_iff_ne, ne_eq]
      exact fun hc => h.1 hc.symm
    simp only [mapLookup, hk, Bool.false_eq_true, if_false]
    exact ih h.2

theorem mapContains_eq_true_of_lookup {α : Type} {k : String} {l : List (String × α)} {v : α}
    (h : mapLookup k l = some v) : mapContains k l = true := by
  have hm := mem_of_mapLookup h
  simp only [mapContains, List.any_eq_true]
  exact ⟨(k, v), hm, by simp⟩

theorem replaceKey_eq_self {α : Type} {k : String} {v : α} {l : List (String × α)}
    (h : ∀ p ∈ l, p.1 ≠ k) :
    l.map (fun p => if p.1 == k then (k, v) else p) = l := by
  induction l with
  | nil => rfl
  | cons p rest ih =>
    have hp : (p.1 == k) = false := by
      simp only [beq_eq_false_iff_ne, ne_eq]
      exact h p (List.mem_cons_self p rest)
    simp only [List.map_cons, hp, Bool.false_eq_true, if_false]
    rw [ih (fun q hq => h q (List.mem_cons_of_mem _ hq))]

theorem keys_replaceKey {α : Type} (k : String) (v : α) (l : List (String × α)) :
    (l.map (fun p => if p.1 == k then (k, v) else p)).map Prod.fst = l.map Prod.fst := by
  induction l with
  | nil => rfl
  | cons p rest ih =>
    by_cases hp : p.1 == k
    · have : p.1 = k := by simpa using hp
      simp only [List.map_cons, hp, if_pos, ih]
      simp [this]
    · simp only [List.map_cons, hp, Bool.false_eq_true, if_false, ih]

theorem keys_nodup_mapSet {α : Type} {k : String} {v : α} {l : List (String × α)}
    (h : (l.map Prod.fst).Nodup) : ((mapSet k v l).map Prod.fst).Nodup := by
  unfold mapSet
  by_cases hc : mapContains k l
  · rw [if_pos hc, keys_replaceKey]
    exact h
  · have hk : k ∉ l.map Prod.fst := by
      intro hmem
      apply hc
      obtain ⟨p, hp, hfst⟩ := List.mem_map.mp hmem
      simp only [mapContains, List.any_eq_true]
      exact ⟨p, hp, by simp [hfst]⟩
    simp only [hc, Bool.false_eq_true, if_false, List.map_append, List.map_cons, List.map_nil]
    refine List.Nodup.append h (List.nodup_singleton k) ?_
    intro a ha hb
    simp only [List.mem_singleton] at hb
    subst hb
    exact hk ha

theorem mapLookup_mapSet_self {α : Type} (k : String) (v : α) (l : List (String × α)) :
    mapLookup k (mapSet k v l) = some v := by
  unfold mapSet
  by_cases hc : mapContains k l
  · simp only [hc, if_pos]
    simp only [mapContains, List.any_eq_true] at hc
    obtain ⟨p, hp, hpk⟩ := hc
    induction l with
    | nil => cases hp
    | cons q rest ih =>
      by_cases hq : q.1 == k
      · simp [mapLookup, hq]
      · simp only [List.map_cons, hq, Bool.false_eq_true, if_false]
        simp only [mapLookup, hq, Bool.false_eq_true, if_false]
        rcases List.mem_cons.mp hp with hpq | hprest
        · subst hpq; simp_all
        · exact ih hprest
  · simp only [hc, Bool.false_eq_true, if_false]
    induction l with
    | nil => simp [mapLookup]
    | cons q rest ih =>
      have hq : (q.1 == k) = false := by
        by_contra hcon
        apply hc
        simp only [Bool.not_eq_false] at hcon
        simp only [mapContains, List.any_eq_true]
        exact ⟨q, List.mem_cons_self q rest, hcon⟩
      simp only [List.cons_append, mapLookup, hq, Bool.false_eq_true, if_false]
      exact ih (by
        intro hcon
        apply hc
        simp only [mapContains, List.any_eq_true] at hcon ⊢
        obtain ⟨p, hp, hpk⟩ := hcon
        exact ⟨p, List.mem_cons_of_mem _ hp, hpk⟩)

theorem mapLookup_mapDelete_self {α : Type} (k : String) (l : List (String × α)) :
    mapLookup k (mapDelete k l) = none := by
  apply mapLookup_eq_none_of_not_mem
  intro hmem
  obtain ⟨p, hp, hfst⟩ := List.mem_map.mp hmem
  have := List.of_mem_filter hp
  simp [hfst] at this

theorem mapLookup_filter_eq_none {α : Type} {k : String} {l : List (String × α)} {v : α}
    {q : String × α → Bool} (hn : (l.map Prod.fst).Nodup) (hl : mapLookup k l = some v)
    (hq : q (k, v) = false) : mapLookup k (l.filter q) = none := by
  induction l with
  | nil => simp [mapLookup] at hl
  | cons p rest ih =>
    simp only [List.map_cons, List.nodup_cons] at hn
    by_cases hp : p.1 == k
    · have hpk : p.1 = k := by simpa using hp
      simp only [mapLookup, hp, if_pos, Option.some.injEq] at hl
      have hpv : p = (k, v) := by cases p; simp_all
      subst hpv
      simp only [List.filter_cons, hq, Bool.false_eq_true, if_false]
      apply mapLookup_eq_none_of_not_mem
      intro hmem
      obtain ⟨r, hr, hrfst⟩ := List.mem_map.mp hmem
      exact hn.1 (by
        simpa [hrfst] using List.mem_map_of_mem Prod.fst (List.mem_of_mem_filter hr))
    · simp only [mapLookup, hp, Bool.false_eq_true, if_false] at hl
      have hrec := ih hn.2 hl
      by_cases hqp : q p
      · simp only [List.filter_cons, hqp, if_pos, mapLookup, hp, Bool.false_eq_true, if_false]
        exact hrec
      · simp only [List.filter_cons, hqp, Bool.false_eq_true, if_false]
        exact hrec

/-! ## The username-uniqueness invariant -/

theorem usernameDistinct_symmetric : Symmetric usernameDistinct :=
  fun _ _ h => fun hc => h hc.symm

theorem pairwise_replaceKey {l : List (SocketId × UserInfo)} {k : String} {v : UserInfo}
    (hn : (l.map Prod.fst).Nodup) (hp : l.Pairwise usernameDistinct)
    (hv : ∀ p ∈ l, p.1 ≠ k → jsToLower p.2.username ≠ jsToLower v.username) :
    (l.map (fun p => if p.1 == k then (k, v) else p)).Pairwise usernameDistinct := by
  induction l with
  | nil => exact List.Pairwise.nil
  | cons a rest ih =>
    simp only [List.map_cons, List.nodup_cons] at hn
    rcases List.pairwise_cons.mp hp with ⟨ha, hrest⟩
    by_cases hak : a.1 == k
    · have haek : a.1 = k := by simpa using hak
      simp only [List.map_cons, hak, if_pos]
      have hrid : rest.map (fun p => if p.1 == k then (k, v) else p) = rest := by
        apply replaceKey_eq_self
        intro p hp hpk
        exact hn.1 (by simpa [hpk, haek] using List.mem_map_of_mem Prod.fst hp)
      rw [List.pairwise_cons, hrid]
      constructor
      · intro p hprest
        have hpk : p.1 ≠ k := fun hc =>
          hn.1 (by simpa [hc, haek] using List.mem_map_of_mem Prod.fst hprest)
        exact usernameDistinct_symmetric (hv p (List.mem_cons_of_mem _ hprest) hpk)
      · exact hrest
    · have hak' : (a.1 == k) = false := by simpa using hak
      simp only [List.map_cons, hak', Bool.false_eq_true, if_false]
      rw [List.pairwise_cons]
      constructor
      · intro q hq
        obtain ⟨p, hprest, hq⟩ := List.mem_map.mp hq
        by_cases hpk : p.1 == k
        · subst hq
          simp only [hpk, if_pos]
          have hane : a.1 ≠ k := by simpa using hak
          exact hv a (List.mem_cons_self a rest) hane
        · subst hq
          simp only [hpk, Bool.false_eq_true, if_false]
          exact ha p hprest
      · exact ih hn.2 hrest (fun p hprest hpk => hv p (List.mem_cons_of_mem _ hprest) hpk)

theorem pairwise_mapSet_fresh {l : List (SocketId × UserInfo)} {k : String} {v : UserInfo}
    (hn : (l.map Prod.fst).Nodup) (hp : l.Pairwise usernameDistinct)
    (hall : ∀ p ∈ l, jsToLower p.2.username ≠ jsToLower v.username) :
    (mapSet k v l).Pairwise usernameDistinct := by
  unfold mapSet
  by_cases hc : mapContains k l
  · simp only [hc, if_pos]
    exact pairwise_replaceKey hn hp (fun p hmem _ => hall p hmem)
  · simp only [hc, Bool.false_eq_true, if_false]
    rw [List.pairwise_append]
    exact ⟨hp, List.pairwise_singleton _ _,
      fun a ha b hb => by
        simp only [List.mem_singleton] at hb
        subst hb
        exact hall a ha⟩

theorem filter_length_partition {α : Type} (p : α → Bool) (l : List α) :
    (l.filter p).length + (l.filter (fun a => !(p a))).length = l.length := by
  induction l with
  | nil => rfl
  | cons a rest ih =>
    by_cases ha : p a <;> simp [List.filter_cons, ha, ← ih] <;> omega

theorem reapUsers_eq (now : Nat) (l : List (SocketId × UserInfo)) :
    ∀ kept, reapUsers now kept l =
      (l.filter (fun p => !(staleUser now p)),
        staleEmits now (l.filter (staleUser now))
          (kept + (l.filter (fun p => !(staleUser now p))).length)) := by
  induction l with
  | nil => intro kept; rfl
  | cons p rest ih =>
    intro kept
    obtain ⟨sid, u⟩ := p
    by_cases hs : INACTIVE_THRESHOLD < now - u.lastSeen
    · have hb : staleUser now (sid, u) = true := by simpa [staleUser] using hs
      have hpart := filter_length_partition (staleUser now) rest
      simp only [reapUsers, if_pos hs, ih kept, List.filter_cons, hb, Bool.not_true,
        Bool.false_eq_true, if_false, if_pos, staleEmits]
      have hcount : kept + rest.length =
          kept + (rest.filter (fun q => !(staleUser now q))).length +
            (rest.filter (staleUser now)).length := by omega
      rw [hcount]
    · have hb : staleUser now (sid, u) = false := by simpa [staleUser] using hs
      simp only [reapUsers, if_neg hs, ih (kept + 1), List.filter_cons, hb, Bool.not_false,
        if_pos, Bool.false_eq_true, if_false, staleEmits, List.length_cons]
      have harith : kept + 1 + (rest.filter (fun q => !(staleUser now q))).length =
          kept + ((rest.filter (fun q => !(staleUser now q))).length + 1) := by omega
      rw [harith]

theorem pairwise_mapSet_sameName {l : List (SocketId × UserInfo)} {k : String}
    {u v : UserInfo} (hn : (l.map Prod.fst).Nodup) (hp : l.Pairwise usernameDistinct)
    (hl : mapLookup k l = some u) (huv : v.username = u.username) :
    (mapSet k v l).Pairwise usernameDistinct := by
  unfold mapSet
  simp only [mapContains_eq_true_of_lookup hl, if_pos]
  apply pairwise_replaceKey hn hp
  intro p hmem hpk
  have hku : (k, u) ∈ l := mem_of_mapLookup hl
  have hne : p ≠ (k, u) := fun hc => hpk (by rw [hc])
  have := hp.forall usernameDistinct_symmetric hmem hku hne
  simpa [usernameDistinct, huv] using this

/-! ## Preservation of registry well-formedness -/

theorem wf_of_activeUsers_eq {st st' : ServerState} (h : st'.activeUsers = st.activeUsers)
    (hw : RegistryWF st) : RegistryWF st' := by
  unfold RegistryWF UniqueUsernames at *
  rw [h]
  exact hw

theorem wf_of_activeUsers_sublist {st st' : ServerState}
    (h : List.Sublist st'.activeUsers st.activeUsers) (hw : RegistryWF st) : RegistryWF st' :=
  ⟨hw.1.sublist (h.map Prod.fst), hw.2.sublist h⟩

theorem wf_mapSet_sameName {st : ServerState} {sid : SocketId} {u v : UserInfo}
    {rest : ServerState} (hw : RegistryWF st)
    (hl : mapLookup sid st.activeUsers = some u)
    (hact : rest.activeUsers = mapSet sid v st.activeUsers)
    (huv : v.username = u.username) : RegistryWF rest := by
  refine ⟨?_, ?_⟩
  · rw [hact]
    exact keys_nodup_mapSet hw.1
  · unfold UniqueUsernames
    rw [hact]
    exact pairwise_mapSet_sameName hw.1 hw.2 hl huv

theorem banHandler_activeUsers (st : ServerState) (e k u : Option String) :
    (banHandler st e k u).2.1.activeUsers = st.activeUsers := by
  unfold banHandler
  repeat' split
  all_goals rfl

theorem unbanHandler_activeUsers (st : ServerState) (e k u : Option String) :
    (unbanHandler st e k u).2.1.activeUsers = st.activeUsers := by
  unfold unbanHandler
  repeat' split
  all_goals rfl

theorem wf_step {st : ServerState} (e : Event) (h : RegistryWF st) : RegistryWF (step st e) := by
  cases e with
  | connect sid => exact wf_of_activeUsers_eq rfl h
  | join sid raw now =>
    show RegistryWF (joinHandler st sid raw now).1
    unfold joinHandler
    by_cases h1 : isValidUsername st.bannedUsers (sanitizeUsername raw)
    · simp only [h1, Bool.not_true, Bool.false_eq_true, if_false]
      by_cases h2 : st.activeUsers.any
          (fun p => jsToLower p.2.username == jsToLower (sanitizeUsername raw))
      · simp only [h2, if_pos]
        exact h
      · simp only [h2, Bool.false_eq_true, if_false]
        refine ⟨keys_nodup_mapSet h.1, ?_⟩
        unfold UniqueUsernames
        apply pairwise_mapSet_fresh h.1 h.2
        intro p hmem
        have := List.any_eq_false.mp (Bool.not_eq_true _ ▸ h2 : st.activeUsers.any _ = false)
        intro hc
        exact absurd (by simpa using hc) (by simpa using this p hmem)
    · simp only [h1, Bool.not_false, if_pos]
      exact h
  | message sid raw now =>
    show RegistryWF (messageHandler st sid raw now).1
    unfold messageHandler
    cases hl : mapLookup sid st.activeUsers with
    | none => exact h
    | some user =>
      simp only []
      by_cases hv : isValidMessage (sanitizeMessage raw)
      · simp only [hv, Bool.not_true, Bool.false_eq_true, if_false]
        by_cases hr : (checkMessageRateLimit st.userActivity user.username now).1
        · simp only [hr, Bool.not_true, Bool.false_eq_true, if_false]
          exact wf_mapSet_sameName h hl rfl rfl
        · simp only [hr, Bool.not_false, if_pos]
          exact wf_of_activeUsers_eq rfl h
      · simp only [hv, Bool.not_false, if_pos]
        exact h
  | typing sid b =>
    show RegistryWF (typingHandler st sid b).1
    unfold typingHandler
    cases mapLookup sid st.activeUsers with
    | none => exact h
    | some user => exact h
  | userIdle sid =>
    show RegistryWF (userIdleHandler st sid).1
    unfold userIdleHandler
    cases hl : mapLookup sid st.activeUsers with
    | none => exact h
    | some user => exact wf_mapSet_sameName h hl rfl rfl
  | userActive sid now =>
    show RegistryWF (userActiveHandler st sid now).1
    unfold userActiveHandler
    cases hl : mapLookup sid st.activeUsers with
    | none => exact h
    | some user => exact wf_mapSet_sameName h hl rfl rfl
  | leave sid now =>
    show RegistryWF (leaveHandler st sid now).1
    unfold leaveHandler handleUserDisconnection
    cases hl : mapLookup sid st.activeUsers with
    | none => exact h
    | some user => exact wf_of_activeUsers_sublist (List.filter_sublist st.activeUsers) h
  | disconnect sid now =>
    show RegistryWF (disconnectHandler st sid now).1
    unfold disconnectHandler handleUserDisconnection
    cases hl : mapLookup sid st.activeUsers with
    | none => exact h
    | some user => exact wf_of_activeUsers_sublist (List.filter_sublist st.activeUsers) h
  | sweep now =>
    show RegistryWF (cleanup st now).1
    unfold cleanup
    rw [reapUsers_eq now st.activeUsers 0]
    exact wf_of_activeUsers_sublist (List.filter_sublist st.activeUsers) h
  | adminBan e k u => exact wf_of_activeUsers_eq (banHandler_activeUsers st e k u) h
  | adminUnban e k u => exact wf_of_activeUsers_eq (unbanHandler_activeUsers st e k u) h

theorem reachable_wf {st : ServerState} (h : Reachable st) : RegistryWF st := by
  induction h with
  | init => exact ⟨List.nodup_nil, List.Pairwise.nil⟩
  | step e _ ih => exact wf_step e ih

/-! ## The recent message buffer -/

theorem addRecentMessage_length_le {α : Type} (l : List α) (a : α)
    (h : l.length ≤ MAX_RECENT_MESSAGES) :
    (addRecentMessage l a).length ≤ MAX_RECENT_MESSAGES := by
  unfold addRecentMessage
  simp only []
  split
  case isTrue hc =>
    simp only [List.length_tail, List.length_append, List.length_singleton] at hc ⊢
    omega
  case isFalse hc =>
    simp only [List.length_append, List.length_singleton] at hc ⊢
    omega

theorem addRecentMessage_drop {α : Type} (l : List α) (a : α) :
    addRecentMessage (l.drop (l.length - MAX_RECENT_MESSAGES)) a =
      (l ++ [a]).drop ((l ++ [a]).length - MAX_RECENT_MESSAGES) := by
  have hM : 1 ≤ MAX_RECENT_MESSAGES := by decide
  unfold addRecentMessage
  by_cases hn : l.length < MAX_RECENT_MESSAGES
  · have h0 : l.length - MAX_RECENT_MESSAGES = 0 := by omega
    rw [h0, List.drop_zero]
    rw [if_neg (by simp only [List.length_append, List.length_singleton]; omega)]
    have h1 : (l ++ [a]).length - MAX_RECENT_MESSAGES = 0 := by
      simp only [List.length_append, List.length_singleton]
      omega
    rw [h1, List.drop_zero]
  · have hlen : (l.drop (l.length - MAX_RECENT_MESSAGES)).length = MAX_RECENT_MESSAGES := by
      rw [List.length_drop]
      omega
    rw [if_pos (by simp only [List.length_append, List.length_singleton, hlen]; omega)]
    have hne : l.drop (l.length - MAX_RECENT_MESSAGES) ≠ [] := by
      intro hcon
      rw [hcon] at hlen
      simp [MAX_RECENT_MESSAGES] at hlen
    obtain ⟨x, xs, hx⟩ := List.exists_cons_of_ne_nil hne
    have hxs : xs = l.drop (l.length - MAX_RECENT_MESSAGES + 1) := by
      have htd := List.tail_drop l (l.length - MAX_RECENT_MESSAGES)
      rw [hx] at htd
      simpa using htd
    have hidx : (l ++ [a]).length - MAX_RECENT_MESSAGES =
        l.length - MAX_RECENT_MESSAGES + 1 := by
      simp only [List.length_append, List.length_singleton]
      omega
    have hle : l.length - MAX_RECENT_MESSAGES + 1 ≤ l.length := by omega
    rw [hx, hidx, List.drop_append_of_le_length hle, ← hxs]
    rfl

theorem foldl_addRecentMessage {α : Type} (ms : List α) :
    ms.foldl addRecentMessage [] = ms.drop (ms.length - MAX_RECENT_MESSAGES) := by
  induction ms using List.reverseRecOn with
  | nil => rfl
  | append_singleton l a ih =>
    rw [List.foldl_append, List.foldl_cons, List.foldl_nil, ih, addRecentMessage_drop]

/-! ## Claim C1 — per-user message rate limiting -/

/-- C1 (counterexample): the limiter is not a fixed window anchored at the
window's start.  One user sends a message every 7 seconds.  Under the claimed
algorithm the window opened at t = 0 expires at t = 63s, so the window resets
there and the 11th message (t = 70s) is admitted with count 2.  The code
instead measures the 60-second gap from the last admitted message (7 seconds
at every step), never resets, and rejects the 11th message. -/
theorem rateLimit_not_fixed_window :
    runLimiter checkMessageRateLimit "u"
        [0, 7000, 14000, 21000, 28000, 35000, 42000, 49000, 56000, 63000, 70000] =
      [true, true, true, true, true, true, true, true, true, true, false] ∧
    runLimiter fixedWindowCheck "u"
        [0, 7000, 14000, 21000, 28000, 35000, 42000, 49000, 56000, 63000, 70000] =
      [true, true, true, true, true, true, true, true, true, true, true] := by
  decide

/-- C1 (amended): per username the limiter keeps a count and the timestamp of
the last admitted message.  A first message opens a window with count 1 and is
admitted; a message arriving more than 60 seconds after the *last admitted
message* resets to count 1 and is admitted; otherwise the message is admitted
with the count incremented iff count < 10, and rejected without changing the
stored state otherwise.  Every admission moves the stored timestamp to the
admitted message's time. -/
theorem rateLimit_gap_window_spec (ua : List (String × Activity)) (u : String) (now : Nat) :
    (mapLookup u ua = none →
      checkMessageRateLimit ua u now = (true, mapSet u ⟨1, now⟩ ua)) ∧
    (∀ a, mapLookup u ua = some a →
      (MESSAGE_WINDOW < now - a.lastMessage →
        checkMessageRateLimit ua u now = (true, mapSet u ⟨1, now⟩ ua)) ∧
      (¬ MESSAGE_WINDOW < now - a.lastMessage → a.messageCount < MESSAGE_RATE_LIMIT →
        checkMessageRateLimit ua u now = (true, mapSet u ⟨a.messageCount + 1, now⟩ ua)) ∧
      (¬ MESSAGE_WINDOW < now - a.lastMessage → ¬ a.messageCount < MESSAGE_RATE_LIMIT →
        checkMessageRateLimit ua u now = (false, ua))) ∧
    ((checkMessageRateLimit ua u now).1 = true →
      ∃ c, mapLookup u (checkMessageRateLimit ua u now).2 = some ⟨c, now⟩) := by
  refine ⟨?_, ?_, ?_⟩
  · intro h
    simp only [checkMessageRateLimit, h]
  · intro a ha
    refine ⟨?_, ?_, ?_⟩
    · intro hgap
      simp [checkMessageRateLimit, ha, hgap]
    · intro hgap hcnt
      simp [checkMessageRateLimit, ha, hgap, hcnt]
    · intro hgap hcnt
      simp [checkMessageRateLimit, ha, hgap, hcnt]
  · intro hadm
    simp only [checkMessageRateLimit] at hadm ⊢
    cases ha : mapLookup u ua with
    | none =>
      exact ⟨1, mapLookup_mapSet_self u ⟨1, now⟩ ua⟩
    | some a =>
      simp only [ha] at hadm ⊢
      by_cases hgap : MESSAGE_WINDOW < now - a.lastMessage
      · simp only [if_pos hgap]
        exact ⟨1, mapLookup_mapSet_self u ⟨1, now⟩ ua⟩
      · simp only [if_neg hgap] at hadm ⊢
        by_cases hcnt : a.messageCount < MESSAGE_RATE_LIMIT
        · simp only [if_pos hcnt]
          exact ⟨a.messageCount + 1, mapLookup_mapSet_self u ⟨a.messageCount + 1, now⟩ ua⟩
        · simp only [if_neg hcnt] at hadm
          simp at hadm

/-- Witness for `rateLimit_gap_window_spec`: a user with three messages in the
current window, the last at t = 1s, sends again at t = 2s and is admitted with
count 4 and timestamp moved to 2s. -/
theorem rateLimit_gap_window_spec_witness :
    checkMessageRateLimit [("u", ⟨3, 1000⟩)] "u" 2000 =
      (true, mapSet "u" ⟨4, 2000⟩ [("u", ⟨3, 1000⟩)]) :=
  ((rateLimit_gap_window_spec [("u", ⟨3, 1000⟩)] "u" 2000).2.1 ⟨3, 1000⟩ (by decide)).2.1
    (by decide) (by decide)

/-! ## Handler case equations -/

theorem joinHandler_taken {st : ServerState} {sid1 : SocketId} {u : UserInfo}
    (sid2 : SocketId) (raw : String) (now : Nat)
    (hu : mapLookup sid1 st.activeUsers = some u)
    (hv : isValidUsername st.bannedUsers (sanitizeUsername raw) = true)
    (hlow : jsToLower (sanitizeUsername raw) = jsToLower u.username) :
    joinHandler st sid2 raw now =
      (st, [errorEmit sid2 "Username is already taken. Please choose a different one."]) := by
  unfold joinHandler
  simp only []
  rw [hv]
  simp only [Bool.not_true, Bool.false_eq_true, if_false]
  have hany : st.activeUsers.any
      (fun p => jsToLower p.2.username == jsToLower (sanitizeUsername raw)) = true := by
    refine List.any_eq_true.mpr ⟨(sid1, u), mem_of_mapLookup hu, ?_⟩
    simp [hlow]
  rw [hany]
  simp

theorem messageHandler_not_joined {st : ServerState} {sid : SocketId} (raw : String) (now : Nat)
    (h : mapLookup sid st.activeUsers = none) :
    messageHandler st sid raw now = (st, [errorEmit sid "You must join the chat first."]) := by
  simp only [messageHandler, h]

theorem hud_none {st : ServerState} {sid : SocketId} (now : Nat)
    (h : mapLookup sid st.activeUsers = none) :
    handleUserDisconnection st sid now = (st, []) := by
  simp only [handleUserDisconnection, h]

theorem hud_some_activeUsers {st : ServerState} {sid : SocketId} {u : UserInfo} (now : Nat)
    (h : mapLookup sid st.activeUsers = some u) :
    (handleUserDisconnection st sid now).1.activeUsers = mapDelete sid st.activeUsers := by
  simp only [handleUserDisconnection, h]

theorem hud_some_events {st : ServerState} {sid : SocketId} {u : UserInfo} (now : Nat)
    (h : mapLookup sid st.activeUsers = some u) :
    (handleUserDisconnection st sid now).2 =
      [⟨Audience.others sid,
        Payload.userLeft u.username (mapDelete sid st.activeUsers).length now⟩] := by
  simp only [handleUserDisconnection, h]

/-! ## Claim C3 — one username per connection lifetime -/

/-- C3 (counterexample): a connection that joined as `alice` can later process
a second `join` with the different free name `bob`; the join succeeds and the
Registry entry of that same connection now carries username `bob`, so a
subsequent join on an already-joined connection does change the username bound
to it. -/
theorem rejoin_overwrites_username :
    mapLookup "s1"
        (step (step initialState (Event.connect "s1"))
          (Event.join "s1" "alice" 0)).activeUsers =
      some ⟨"alice", 0, 0, "s1", none⟩ ∧
    mapLookup "s1"
        (step (step (step initialState (Event.connect "s1")) (Event.join "s1" "alice" 0))
          (Event.join "s1" "bob" 5)).activeUsers =
      some ⟨"bob", 5, 5, "s1", none⟩ := by
  decide

/-- C3 (amended): a join on an already-joined connection is rejected when the
sanitized name collides case-insensitively with any live username (including
the connection's own current name), leaving the state unchanged; but a join
with a valid name that collides with no live username succeeds and rebinds
the connection to the new username, so a connection can hold several
usernames over its lifetime. -/
theorem join_rebind_spec (st : ServerState) (sid : SocketId) (raw : String) (now : Nat)
    (u : UserInfo) (hu : mapLookup sid st.activeUsers = some u) :
    (jsToLower (sanitizeUsername raw) = jsToLower u.username →
      isValidUsername st.bannedUsers (sanitizeUsername raw) = true →
      joinHandler st sid raw now =
        (st, [errorEmit sid "Username is already taken. Please choose a different one."])) ∧
    (isValidUsername st.bannedUsers (sanitizeUsername raw) = true →
      (∀ p ∈ st.activeUsers, jsToLower p.2.username ≠ jsToLower (sanitizeUsername raw)) →
      mapLookup sid (joinHandler st sid raw now).1.activeUsers =
        some ⟨sanitizeUsername raw, now, now, sid, none⟩) := by
  constructor
  · intro hlow hv
    exact joinHandler_taken sid raw now hu hv hlow
  · intro hv hall
    unfold joinHandler
    simp only []
    rw [hv]
    simp only [Bool.not_true, Bool.false_eq_true, if_false]
    have hany : st.activeUsers.any
        (fun p => jsToLower p.2.username == jsToLower (sanitizeUsername raw)) = false := by
      refine List.any_eq_false.mpr ?_
      intro p hp
      simpa using hall p hp
    rw [hany]
    simp only [Bool.false_eq_true, if_false]
    exact mapLookup_mapSet_self sid ⟨sanitizeUsername raw, now, now, sid, none⟩ st.activeUsers

/-- Witness for `join_rebind_spec`: a connection joined as `alice` has its
re-join as the case variant `Alice` rejected, while its re-join as the free
name `bob` rebinds it to `bob`. -/
theorem join_rebind_spec_witness :
    joinHandler ⟨[("s1", ⟨"alice", 0, 0, "s1", none⟩)], [], [], [], ["s1"]⟩ "s1" "Alice" 9 =
      (⟨[("s1", ⟨"alice", 0, 0, "s1", none⟩)], [], [], [], ["s1"]⟩,
        [errorEmit "s1" "Username is already taken. Please choose a different one."]) ∧
    mapLookup "s1"
        (joinHandler ⟨[("s1", ⟨"alice", 0, 0, "s1", none⟩)], [], [], [], ["s1"]⟩
          "s1" "bob" 9).1.activeUsers =
      some ⟨"bob", 9, 9, "s1", none⟩ :=
  ⟨(join_rebind_spec ⟨[("s1", ⟨"alice", 0, 0, "s1", none⟩)], [], [], [], ["s1"]⟩ "s1" "Alice" 9
      ⟨"alice", 0, 0, "s1", none⟩ (by decide)).1 (by decide) (by decide),
    (join_rebind_spec ⟨[("s1", ⟨"alice", 0, 0, "s1", none⟩)], [], [], [], ["s1"]⟩ "s1" "bob" 9
      ⟨"alice", 0, 0, "s1", none⟩ (by decide)).2 (by decide) (by decide)⟩

/-! ## Claim C4 — shape of accepted usernames -/

/-- C4 (counterexample): the raw input consisting of `a`, a tab and `b` is
accepted by the username policy unchanged, yet the tab character is not in
the claimed character set (letters, digits, underscore, hyphen, space): the
regular expression's `\s` admits every whitespace character, not just the
space. -/
theorem username_policy_admits_tab :
    sanitizeUsername "a\tb" = "a\tb" ∧
    isValidUsername [] (sanitizeUsername "a\tb") = true ∧
    '\t' ∈ (sanitizeUsername "a\tb").toList ∧
    claimUsernameChar '\t' = false := by
  decide

/-- C4 (amended): every raw input accepted by the username policy sanitizes
(angle brackets stripped, surrounding whitespace trimmed) to a string of
length 1 to 20 whose characters are letters, digits, underscore, hyphen or
whitespace (the class `[a-zA-Z0-9\s_-]`), and whose lowercased form is not on
the ban list. -/
theorem username_policy_accepted_shape (bannedUsers : List String) (raw : String)
    (h : isValidUsername bannedUsers (sanitizeUsername raw) = true) :
    1 ≤ jsLength (sanitizeUsername raw) ∧
    jsLength (sanitizeUsername raw) ≤ 20 ∧
    (∀ c ∈ (sanitizeUsername raw).toList, usernameClassChar c = true) ∧
    bannedUsers.contains (jsToLower (sanitizeUsername raw)) = false := by
  unfold isValidUsername at h
  simp only [Bool.and_eq_true, decide_eq_true_eq, Bool.not_eq_true'] at h
  obtain ⟨⟨⟨⟨_, h1⟩, h2⟩, h3⟩, h4⟩ := h
  refine ⟨h1, h2, ?_, h4⟩
  unfold usernameRegexTest at h3
  simp only [Bool.and_eq_true] at h3
  exact fun c hc => List.all_eq_true.mp h3.2 c hc

/-- Witness for `username_policy_accepted_shape` at the raw input
`" Bo b-1_ "` against the ban list `["zed"]`: it sanitizes to `Bo b-1_`,
which has length 7, draws all characters from the class, and is not banned. -/
theorem username_policy_accepted_shape_witness :
    1 ≤ jsLength (sanitizeUsername " Bo b-1_ ") ∧
    jsLength (sanitizeUsername " Bo b-1_ ") ≤ 20 ∧
    (∀ c ∈ (sanitizeUsername " Bo b-1_ ").toList, usernameClassChar c = true) ∧
    (["zed"].contains (jsToLower (sanitizeUsername " Bo b-1_ "))) = false :=
  username_policy_accepted_shape ["zed"] " Bo b-1_ " (by decide)

/-! ## Claim C5 — the recent message buffer is a bounded FIFO -/

/-- C5: the recent message buffer is a bounded FIFO of capacity 50: a push
appends at the tail and, when the capacity is exceeded, removes the head.
Any state within capacity stays within capacity after a push; inserting any
sequence of messages into the empty buffer leaves exactly the last 50 (in
insertion order); in particular after 55 insertions the size is exactly 50
and the content is the last 50 messages. -/
theorem recent_buffer_bounded_fifo :
    (∀ (α : Type) (l : List α) (a : α), l.length ≤ MAX_RECENT_MESSAGES →
      (addRecentMessage l a).length ≤ MAX_RECENT_MESSAGES) ∧
    (∀ (α : Type) (ms : List α),
      ms.foldl addRecentMessage [] = ms.drop (ms.length - MAX_RECENT_MESSAGES)) ∧
    (∀ (α : Type) (ms : List α), ms.length = 55 →
      (ms.foldl addRecentMessage []).length = 50 ∧
      ms.foldl addRecentMessage [] = ms.drop 5) := by
  refine ⟨fun α l a h => addRecentMessage_length_le l a h,
    fun α ms => foldl_addRecentMessage ms, ?_⟩
  intro α ms h55
  rw [foldl_addRecentMessage ms, h55]
  refine ⟨?_, rfl⟩
  rw [List.length_drop, h55]
  decide

/-- Witness for `recent_buffer_bounded_fifo`: pushing onto a full buffer of
50 naturals keeps it at 50, and folding the 55 naturals `0…54` into the empty
buffer leaves exactly `5…54`. -/
theorem recent_buffer_bounded_fifo_witness :
    (addRecentMessage (List.range 50) 7).length ≤ MAX_RECENT_MESSAGES ∧
    ((List.range 55).foldl addRecentMessage []).length = 50 ∧
    (List.range 55).foldl addRecentMessage [] = (List.range 55).drop 5 :=
  ⟨recent_buffer_bounded_fifo.1 Nat (List.range 50) 7 (by decide),
    (recent_buffer_bounded_fifo.2.2 Nat (List.range 55) (by decide)).1,
    (recent_buffer_bounded_fifo.2.2 Nat (List.range 55) (by decide)).2⟩

/-! ## Claim C6 — message sanitization -/

/-- C6: message sanitization removes script-tag blocks (non-greedy, spanning
content included), strips the remaining angle brackets and trims surrounding
whitespace, and the 1–500 length acceptance check is applied to the sanitized
text: an invalid sanitized text is rejected with an error to the sender, and
for a joined, non-rate-limited sender the input
`<script>alert(1)</script>hello` is stored in the buffer and broadcast as
exactly `hello`. -/
theorem message_sanitize_spec :
    sanitizeMessage "<script>alert(1)</script>hello" = "hello" ∧
    (∀ (st : ServerState) (sid : SocketId) (raw : String) (now : Nat) (user : UserInfo),
      mapLookup sid st.activeUsers = some user →
      isValidMessage (sanitizeMessage raw) = false →
      messageHandler st sid raw now =
        (st, [errorEmit sid "Invalid message. Must be 1-500 characters."])) ∧
    (∀ (st : ServerState) (sid : SocketId) (now : Nat) (user : UserInfo),
      mapLookup sid st.activeUsers = some user →
      (checkMessageRateLimit st.userActivity user.username now).1 = true →
      (messageHandler st sid "<script>alert(1)</script>hello" now).1.recentMessages =
        addRecentMessage st.recentMessages ⟨user.username, "hello", now, sid⟩ ∧
      (messageHandler st sid "<script>alert(1)</script>hello" now).2 =
        [⟨Audience.room, Payload.chatMessage ⟨user.username, "hello", now, sid⟩⟩]) := by
  have hhello : sanitizeMessage "<script>alert(1)</script>hello" = "hello" := by decide
  refine ⟨hhello, ?_, ?_⟩
  · intro st sid raw now user hu hbad
    simp only [messageHandler, hu, hbad, Bool.not_false, if_pos]
  · intro st sid now user hu hr
    have hv : isValidMessage (sanitizeMessage "<script>alert(1)</script>hello") = true := by
      decide
    simp only [messageHandler, hu, hv, Bool.not_true, Bool.false_eq_true, if_false, hr,
      hhello]
    exact ⟨rfl, rfl⟩

/-- Witness for `message_sanitize_spec`: a joined user `alice` with no prior
rate activity sends `<script>alert(1)</script>hello`; the buffer receives and
the room is broadcast exactly `hello`. -/
theorem message_sanitize_spec_witness :
    (messageHandler ⟨[("s1", ⟨"alice", 0, 0, "s1", none⟩)], [], [], [], ["s1"]⟩
        "s1" "<script>alert(1)</script>hello" 5).1.recentMessages =
      addRecentMessage [] ⟨"alice", "hello", 5, "s1"⟩ ∧
    (messageHandler ⟨[("s1", ⟨"alice", 0, 0, "s1", none⟩)], [], [], [], ["s1"]⟩
        "s1" "<script>alert(1)</script>hello" 5).2 =
      [⟨Audience.room, Payload.chatMessage ⟨"alice", "hello", 5, "s1"⟩⟩] :=
  message_sanitize_spec.2.2 ⟨[("s1", ⟨"alice", 0, 0, "s1", none⟩)], [], [], [], ["s1"]⟩
    "s1" 5 ⟨"alice", 0, 0, "s1", none⟩ (by decide) (by decide)

/-! ## Claim C7 — leave/disconnect is idempotent -/

/-- C7: the first leave of a registered connection removes it from the
Registry and emits exactly one `userLeft` event — carrying the username, the
live count measured after the removal, and the timestamp — to the other
connections; a leave of an unregistered connection is a no-op emitting
nothing; hence a second leave after the first emits nothing, and two
successive leaves produce exactly one `userLeft` broadcast. -/
theorem leave_idempotent :
    (∀ (st : ServerState) (sid : SocketId) (now : Nat) (u : UserInfo),
      mapLookup sid st.activeUsers = some u →
      (handleUserDisconnection st sid now).1.activeUsers = mapDelete sid st.activeUsers ∧
      (handleUserDisconnection st sid now).2 =
        [⟨Audience.others sid,
          Payload.userLeft u.username (mapDelete sid st.activeUsers).length now⟩]) ∧
    (∀ (st : ServerState) (sid : SocketId) (now : Nat),
      mapLookup sid st.activeUsers = none →
      handleUserDisconnection st sid now = (st, [])) ∧
    (∀ (st : ServerState) (sid : SocketId) (now now' : Nat) (u : UserInfo),
      mapLookup sid st.activeUsers = some u →
      handleUserDisconnection (handleUserDisconnection st sid now).1 sid now' =
        ((handleUserDisconnection st sid now).1, []) ∧
      countUserLeft ((handleUserDisconnection st sid now).2 ++
        (handleUserDisconnection (handleUserDisconnection st sid now).1 sid now').2) = 1) := by
  refine ⟨?_, ?_, ?_⟩
  · intro st sid now u hu
    exact ⟨hud_some_activeUsers now hu, hud_some_events now hu⟩
  · intro st sid now h
    exact hud_none now h
  · intro st sid now now' u hu
    have hnone : mapLookup sid (handleUserDisconnection st sid now).1.activeUsers = none := by
      rw [hud_some_activeUsers now hu]
      exact mapLookup_mapDelete_self sid st.activeUsers
    have h2 := hud_none now' hnone
    refine ⟨h2, ?_⟩
    rw [hud_some_events now hu, h2]
    simp [countUserLeft, isUserLeftEmit]

/-- Witness for `leave_idempotent`: the connection `s1` registered as `alice`
leaves twice; the first leave removes it and emits one `userLeft` with count
0, the second emits nothing. -/
theorem leave_idempotent_witness :
    handleUserDisconnection
        (handleUserDisconnection
          ⟨[("s1", ⟨"alice", 0, 0, "s1", none⟩)], [], [], [], ["s1"]⟩ "s1" 3).1 "s1" 4 =
      ((handleUserDisconnection
          ⟨[("s1", ⟨"alice", 0, 0, "s1", none⟩)], [], [], [], ["s1"]⟩ "s1" 3).1, []) ∧
    countUserLeft
        ((handleUserDisconnection
            ⟨[("s1", ⟨"alice", 0, 0, "s1", none⟩)], [], [], [], ["s1"]⟩ "s1" 3).2 ++
          (handleUserDisconnection
            (handleUserDisconnection
              ⟨[("s1", ⟨"alice", 0, 0, "s1", none⟩)], [], [], [], ["s1"]⟩ "s1" 3).1
            "s1" 4).2) = 1 :=
  leave_idempotent.2.2 ⟨[("s1", ⟨"alice", 0, 0, "s1", none⟩)], [], [], [], ["s1"]⟩
    "s1" 3 4 ⟨"alice", 0, 0, "s1", none⟩ (by decide)

/-! ## Claim C8 — one idle-reaper cycle -/

/-- C8: one reaper cycle removes exactly the registry entries whose
`lastSeen` is more than 30 minutes old (an entry 30 minutes old or newer is
untouched), emits for each removed entry a `userLeft` room broadcast whose
online count is the registry size measured right after that removal — the
surviving population plus the evictions still to come, so successively
decremented — and removes exactly the rate-activity entries whose timestamp
is more than 60 minutes old.  All other state components are untouched. -/
theorem cleanup_spec (st : ServerState) (now : Nat) :
    (cleanup st now).1.activeUsers =
      st.activeUsers.filter (fun p => !(staleUser now p)) ∧
    (cleanup st now).1.userActivity =
      st.userActivity.filter (fun p => !(decide (ACTIVITY_TTL < now - p.2.lastMessage))) ∧
    (cleanup st now).2 =
      staleEmits now (st.activeUsers.filter (staleUser now))
        (st.activeUsers.filter (fun p => !(staleUser now p))).length ∧
    (cleanup st now).1.recentMessages = st.recentMessages ∧
    (cleanup st now).1.bannedUsers = st.bannedUsers ∧
    (cleanup st now).1.connected = st.connected := by
  unfold cleanup
  rw [reapUsers_eq now st.activeUsers 0]
  refine ⟨rfl, rfl, ?_, rfl, rfl, rfl⟩
  rw [Nat.zero_add]

/-! ## Claim C9 — ban-list administration -/

/-- C9: with a matching administrative credential, `ban(username)` adds the
lowercased username to the ban list (leaving the registry unchanged) and, if
some live connection currently holds that username case-insensitively,
notifies that connection of the ban and force-disconnects it; for both ban
and unban a mismatched credential yields 401 with the state unchanged, and a
missing username yields 400 with the state unchanged. -/
theorem admin_ban_unban_spec :
    (∀ (st : ServerState) (envKey adminKey username : Option String), adminKey ≠ envKey →
      banHandler st envKey adminKey username = (401, st, [], []) ∧
      unbanHandler st envKey adminKey username = (401, st, [], [])) ∧
    (∀ (st : ServerState) (envKey : Option String),
      banHandler st envKey envKey none = (400, st, [], []) ∧
      unbanHandler st envKey envKey none = (400, st, [], [])) ∧
    (∀ (st : ServerState) (envKey : Option String) (u : String), u ≠ "" →
      (banHandler st envKey envKey (some u)).1 = 200 ∧
      (banHandler st envKey envKey (some u)).2.1.bannedUsers =
        setAdd st.bannedUsers (jsToLower u) ∧
      (banHandler st envKey envKey (some u)).2.1.activeUsers = st.activeUsers ∧
      unbanHandler st envKey envKey (some u) =
        (200, { st with bannedUsers := setDelete st.bannedUsers (jsToLower u) }, [], [])) ∧
    (∀ (st : ServerState) (envKey : Option String) (u : String) (sid : SocketId)
        (info : UserInfo), u ≠ "" →
      st.activeUsers.find? (fun p => jsToLower p.2.username == jsToLower u) =
        some (sid, info) →
      st.connected.contains sid = true →
      banHandler st envKey envKey (some u) =
        (200, { st with bannedUsers := setAdd st.bannedUsers (jsToLower u) },
          [errorEmit sid "You have been banned from the chat."], [sid])) := by
  refine ⟨?_, ?_, ?_, ?_⟩
  · intro st envKey adminKey username hne
    have hb : (adminKey == envKey) = false := beq_eq_false_iff_ne.mpr hne
    constructor
    · simp only [banHandler, hb, Bool.not_false, if_pos]
    · simp only [unbanHandler, hb, Bool.not_false, if_pos]
  · intro st envKey
    constructor
    · simp [banHandler]
    · simp [unbanHandler]
  · intro st envKey u hu
    have hb : (u == "") = false := beq_eq_false_iff_ne.mpr hu
    refine ⟨?_, ?_, ?_, ?_⟩
    · simp only [banHandler, beq_self_eq_true, Bool.not_true, Bool.false_eq_true, if_false,
        hb]
      split
      · rfl
      · split <;> rfl
    · simp only [banHandler, beq_self_eq_true, Bool.not_true, Bool.false_eq_true, if_false,
        hb]
      split
      · rfl
      · split <;> rfl
    · simp only [banHandler, beq_self_eq_true, Bool.not_true, Bool.false_eq_true, if_false,
        hb]
      split
      · rfl
      · split <;> rfl
    · simp [unbanHandler, hb]
  · intro st envKey u sid info hu hfind hconn
    have hb : (u == "") = false := beq_eq_false_iff_ne.mpr hu
    simp only [banHandler, beq_self_eq_true, Bool.not_true, Bool.false_eq_true, if_false,
      hb, hfind, hconn, if_pos]

/-- Witness for `admin_ban_unban_spec`: a wrong key is rejected with 401; a
missing username gives 400; banning `Bob` while the connection `s7` holds
`bob` adds `bob` to the list, notifies `s7` and disconnects it; unbanning
removes it from the list. -/
theorem admin_ban_unban_spec_witness :
    banHandler ⟨[("s7", ⟨"bob", 0, 0, "s7", none⟩)], [], [], [], ["s7"]⟩
        (some "k") (some "wrong") (some "Bob") =
      (401, ⟨[("s7", ⟨"bob", 0, 0, "s7", none⟩)], [], [], [], ["s7"]⟩, [], []) ∧
    banHandler ⟨[("s7", ⟨"bob", 0, 0, "s7", none⟩)], [], [], [], ["s7"]⟩
        (some "k") (some "k") none =
      (400, ⟨[("s7", ⟨"bob", 0, 0, "s7", none⟩)], [], [], [], ["s7"]⟩, [], []) ∧
    banHandler ⟨[("s7", ⟨"bob", 0, 0, "s7", none⟩)], [], [], [], ["s7"]⟩
        (some "k") (some "k") (some "Bob") =
      (200, ⟨[("s7", ⟨"bob", 0, 0, "s7", none⟩)], [], ["bob"], [], ["s7"]⟩,
        [errorEmit "s7" "You have been banned from the chat."], ["s7"]) ∧
    unbanHandler ⟨[("s7", ⟨"bob", 0, 0, "s7", none⟩)], [], ["bob"], [], ["s7"]⟩
        (some "k") (some "k") (some "Bob") =
      (200, ⟨[("s7", ⟨"bob", 0, 0, "s7", none⟩)], [], [], [], ["s7"]⟩, [], []) :=
  ⟨(admin_ban_unban_spec.1 ⟨[("s7", ⟨"bob", 0, 0, "s7", none⟩)], [], [], [], ["s7"]⟩
      (some "k") (some "wrong") (some "Bob") (by decide)).1,
    (admin_ban_unban_spec.2.1 ⟨[("s7", ⟨"bob", 0, 0, "s7", none⟩)], [], [], [], ["s7"]⟩
      (some "k")).1,
    by
      have h := admin_ban_unban_spec.2.2.2
        ⟨[("s7", ⟨"bob", 0, 0, "s7", none⟩)], [], [], [], ["s7"]⟩ (some "k") "Bob" "s7"
        ⟨"bob", 0, 0, "s7", none⟩ (by decide) (by decide) (by decide)
      exact h.trans (by decide),
    by
      have h := (admin_ban_unban_spec.2.2.1
        ⟨[("s7", ⟨"bob", 0, 0, "s7", none⟩)], [], ["bob"], [], ["s7"]⟩ (some "k") "Bob"
        (by decide)).2.2.2
      exact h.trans (by decide)⟩

/-! ## Claim C10 — reaper eviction leaves the transport open -/

/-- C10: a reaper cycle never touches the set of open transports; a message
from a connection that is absent from the registry is answered with the
join-precondition error to that connection only, with no state change; in
particular a connection evicted by the reaper (its entry stale, the registry
well-formed) is no longer registered after the sweep, and its next message is
answered exactly like one from a connection that never joined. -/
theorem reaper_keeps_transport_open :
    (∀ (st : ServerState) (now : Nat), (cleanup st now).1.connected = st.connected) ∧
    (∀ (st : ServerState) (sid : SocketId) (raw : String) (now : Nat),
      mapLookup sid st.activeUsers = none →
      messageHandler st sid raw now = (st, [errorEmit sid "You must join the chat first."])) ∧
    (∀ (st : ServerState) (sid : SocketId) (info : UserInfo) (raw : String) (now now' : Nat),
      (st.activeUsers.map Prod.fst).Nodup →
      mapLookup sid st.activeUsers = some info →
      INACTIVE_THRESHOLD < now - info.lastSeen →
      mapLookup sid (cleanup st now).1.activeUsers = none ∧
      messageHandler (cleanup st now).1 sid raw now' =
        ((cleanup st now).1, [errorEmit sid "You must join the chat first."])) := by
  refine ⟨?_, ?_, ?_⟩
  · intro st now
    unfold cleanup
    rfl
  · intro st sid raw now h
    exact messageHandler_not_joined raw now h
  · intro st sid info raw now now' hn hl hstale
    have hact : (cleanup st now).1.activeUsers =
        st.activeUsers.filter (fun p => !(staleUser now p)) := by
      unfold cleanup
      rw [reapUsers_eq now st.activeUsers 0]
    have hnone : mapLookup sid (cleanup st now).1.activeUsers = none := by
      rw [hact]
      exact mapLookup_filter_eq_none hn hl (by simp [staleUser, hstale])
    exact ⟨hnone, messageHandler_not_joined raw now' hnone⟩

/-- Witness for `reaper_keeps_transport_open`: the connection `s1`, joined as
`alice` and last seen at time 0, is swept at 31 minutes; its transport stays
open, it is gone from the registry, and its next message at 32 minutes gets
only the join-precondition error. -/
theorem reaper_keeps_transport_open_witness :
    mapLookup "s1"
        (cleanup ⟨[("s1", ⟨"alice", 0, 0, "s1", none⟩)], [], [], [], ["s1"]⟩
          1860000).1.activeUsers = none ∧
    messageHandler
        (cleanup ⟨[("s1", ⟨"alice", 0, 0, "s1", none⟩)], [], [], [], ["s1"]⟩ 1860000).1
        "s1" "hi" 1920000 =
      ((cleanup ⟨[("s1", ⟨"alice", 0, 0, "s1", none⟩)], [], [], [], ["s1"]⟩ 1860000).1,
        [errorEmit "s1" "You must join the chat first."]) :=
  reaper_keeps_transport_open.2.2
    ⟨[("s1", ⟨"alice", 0, 0, "s1", none⟩)], [], [], [], ["s1"]⟩ "s1"
    ⟨"alice", 0, 0, "s1", none⟩ "hi" 1860000 1920000 (by decide) (by decide) (by decide)

/-! ## Claim C2 — username uniqueness across live connections -/

/-- C2: in every reachable server state no two live connections hold
case-insensitively equal usernames; and whenever some connection holds a
username and a join attempt arrives (from any connection) whose sanitized
name is valid but equal to that username case-insensitively, the attempt is
rejected with an error to the requester only, the state is unchanged, and the
first connection remains registered with its binding intact. -/
theorem reachable_unique_usernames :
    (∀ st : ServerState, Reachable st → UniqueUsernames st) ∧
    (∀ (st : ServerState) (sid1 sid2 : SocketId) (raw : String) (now : Nat) (u : UserInfo),
      mapLookup sid1 st.activeUsers = some u →
      isValidUsername st.bannedUsers (sanitizeUsername raw) = true →
      jsToLower (sanitizeUsername raw) = jsToLower u.username →
      joinHandler st sid2 raw now =
        (st, [errorEmit sid2 "Username is already taken. Please choose a different one."]) ∧
      mapLookup sid1 (joinHandler st sid2 raw now).1.activeUsers = some u) := by
  constructor
  · intro st h
    exact (reachable_wf h).2
  · intro st sid1 sid2 raw now u hu hv hlow
    have heq := joinHandler_taken sid2 raw now hu hv hlow
    refine ⟨heq, ?_⟩
    rw [heq]
    exact hu

/-- Witness for `reachable_unique_usernames`: after `s1` connects and joins
as `alice`, the reachable state has pairwise-distinct usernames, and a join
by `s2` as the case variant `Alice` is rejected while `s1` stays bound to
`alice`. -/
theorem reachable_unique_usernames_witness :
    UniqueUsernames
        (step (step initialState (Event.connect "s1")) (Event.join "s1" "alice" 0)) ∧
    (joinHandler (step (step initialState (Event.connect "s1")) (Event.join "s1" "alice" 0))
        "s2" "Alice" 7 =
      (step (step initialState (Event.connect "s1")) (Event.join "s1" "alice" 0),
        [errorEmit "s2" "Username is already taken. Please choose a different one."]) ∧
      mapLookup "s1"
          (joinHandler
            (step (step initialState (Event.connect "s1")) (Event.join "s1" "alice" 0))
            "s2" "Alice" 7).1.activeUsers =
        some ⟨"alice", 0, 0, "s1", none⟩) :=
  ⟨reachable_unique_usernames.1 _
      (Reachable.step (Event.join "s1" "alice" 0)
        (Reachable.step (Event.connect "s1") Reachable.init)),
    reachable_unique_usernames.2 _ "s1" "s2" "Alice" 7 ⟨"alice", 0, 0, "s1", none⟩
      (by decide) (by decide) (by decide)⟩

end ChatServer
